import Mathlib

/-!
Verification development for the video-classification training script
(`src/train.py`).  The script's own logic — checkpoint bookkeeping, the
train/validate/predict loops, argmax-based prediction, CSV assembly, CLI model
selection and exit behaviour — is embedded shallowly below.  Torch, numpy and
pandas primitives that the script calls are modelled by small executable Lean
functions with the library's documented semantics (numpy flat `argmax`,
numpy slice assignment with broadcasting, `np.mean` of a possibly-empty list,
dataloader chunking with and without `drop_last`); the model's forward pass,
the loss function and the optimizer update are kept as explicit function
parameters, exactly as `train`/`validate` receive them as parameters in the
source.
-/

namespace VC

/-- Floating-point scalar values as they matter to the script: a genuine
(finite, here rational) number, `inf` (the initial best validation loss,
`np.inf` at `train.py` line 123) or `nan` (`np.mean` of an empty list).
Ordinary Python floats that arise as losses are `fin` values. -/
inductive FV where
  | nan : FV
  | fin : ℚ → FV
  | inf : FV
deriving DecidableEq

/-- IEEE `<` on the modelled floats: `nan` compares false with everything,
`inf < inf` is false, and a finite value is below `inf`. -/
def FV.lt : FV → FV → Bool
  | .fin a, .fin b => decide (a < b)
  | .fin _, .inf => true
  | _, _ => false

/-- Whether the value is an ordinary finite float. -/
def FV.isFin : FV → Bool
  | .fin _ => true
  | _ => false

/-- `np.mean` on a list of finite floats: `nan` on the empty list (numpy
emits a warning and returns `nan`, it does not raise), otherwise the
arithmetic mean. -/
def npMeanQ (l : List ℚ) : FV :=
  if l.isEmpty then FV.nan else FV.fin (l.sum / l.length)

/-- Observable events of one run, used to state ordering and frame
properties of the loops in `train.py`. -/
inductive Ev where
  | loadCkpt : Ev
  | saveCkpt : Ev
  | predicted : Ev
  | fwdPass : Ev
  | computeLoss : Ev
  | backwardPass : Ev
  | optStep : Ev
  | zeroGrad : Ev
  | noGradFwd : Ev
deriving DecidableEq

/-- Errors the script can abort with; opening a missing checkpoint file
raises an `OSError` (I/O error) that nothing in `train.py` catches. -/
inductive Err where
  | ioError : Err
deriving DecidableEq

/-- Fuel-driven worker for `chunks`; the fuel starts at the list's length,
which suffices because every step with a positive chunk size consumes at
least one element. -/
def chunksGo (b : Nat) : Nat → List α → List (List α)
  | 0, _ => []
  | _, [] => []
  | fuel + 1, x :: xs => (x :: xs).take b :: chunksGo b fuel ((x :: xs).drop b)

/-- Consecutive chunks of size `b` taken from a list, the last chunk possibly
shorter: the batches yielded by a `DataLoader` with `drop_last=False`
(`train.py` lines 114, 136).  A `DataLoader` rejects a zero batch size, so
that case is mapped to no batches. -/
def chunks (b : Nat) (l : List α) : List (List α) :=
  if b = 0 then [] else chunksGo b l.length l

/-- Batches of a `DataLoader` with `drop_last=True` (the training loader,
`train.py` line 112): only the complete chunks of size `b` survive. -/
def chunksDropLast (b : Nat) (l : List α) : List (List α) :=
  chunks b (l.take (b * (l.length / b)))

/-- Concatenation of a list of rows: numpy's row-major flattening of a
two-dimensional array. -/
def concatAll : List (List ℚ) → List ℚ
  | [] => []
  | r :: rs => r ++ concatAll rs

/-- Index scan behind `npArgmax`: the index of the first strict maximum of
the remaining list, given the best value seen so far. -/
def argmaxGo : List ℚ → Nat → Nat → ℚ → Nat
  | [], _, bi, _ => bi
  | x :: xs, i, bi, bv =>
    if bv < x then argmaxGo xs (i + 1) i x else argmaxGo xs (i + 1) bi bv

/-- `np.argmax` of a one-dimensional array: index of the first occurrence of
the maximum (0 on the empty array, which numpy rejects; the script never
reaches that case). -/
def npArgmax : List ℚ → Nat
  | [] => 0
  | x :: xs => argmaxGo xs 1 0 x

/-- Numpy slice assignment `arr[lo:hi] = v` with a scalar (broadcast) right
hand side, the slice clipped to the array bounds; `j` is the index of the
first element of the list being traversed. -/
def setSlice (v : ℚ) (lo hi : Nat) : Nat → List ℚ → List ℚ
  | _, [] => []
  | j, x :: xs => (if lo ≤ j ∧ j < hi then v else x) :: setSlice v lo hi (j + 1) xs

/-- Numpy slice assignment `arr[lo:lo+len(vs)] = vs` with a vector right
hand side, the slice clipped to the array bounds. -/
def setSliceVec (vs : List ℚ) (lo : Nat) : Nat → List ℚ → List ℚ
  | _, [] => []
  | j, x :: xs =>
    (if lo ≤ j ∧ j - lo < vs.length then vs.getD (j - lo) x else x)
      :: setSliceVec vs lo (j + 1) xs

/-- The two model variants of the repository (`models.py`). -/
inductive ModelKind where
  | cnnAvg : ModelKind
  | cnnRnn : ModelKind
deriving DecidableEq

/-- Model dispatch of `main` (`train.py` lines 94–97): the string compare
`args.model_type == "cnn-rnn"` selects the recurrent model, every other
string falls into the `else` branch and builds the average model. -/
def selectModel (s : String) : ModelKind :=
  if s = "cnn-rnn" then ModelKind.cnnRnn else ModelKind.cnnAvg

/-- Result of the `train` function (`train.py` lines 36–50): the weights
after the epoch, the `model.train()` mode flag, the trace of per-batch
operations, the recorded per-batch losses (`train_loss`), and the returned
`np.mean(train_loss)`. -/
structure TrainResult (W : Type) where
  weights : W
  modeTraining : Bool
  trace : List Ev
  losses : List ℚ
deriving DecidableEq

/-- Body of the batch loop of `train` (`train.py` lines 39–48): forward pass
on the current weights, loss of the logits against the integer labels,
append the loss, backward pass, `optimizer.step()` (weight update `stepF`),
`optimizer.zero_grad()`.  `fwd` is the model's forward function and `lossFn`
the `loss_fn` parameter, both received as parameters exactly as in the
source. -/
def trainGo (fwd : W → I → List (List ℚ)) (lossFn : List (List ℚ) → List ℤ → ℚ)
    (stepF : W → I × List ℤ → W) : W → List (I × List ℤ) → W × List Ev × List ℚ
  | w, [] => (w, [], [])
  | w, bt :: bs =>
    let logits := fwd w bt.1
    let ell := lossFn logits bt.2
    let w' := stepF w bt
    let rest := trainGo fwd lossFn stepF w' bs
    (rest.1, [Ev.fwdPass, Ev.computeLoss, Ev.backwardPass, Ev.optStep, Ev.zeroGrad] ++ rest.2.1,
      ell :: rest.2.2)

/-- The `train` function (`train.py` lines 36–50). -/
def trainRun (fwd : W → I → List (List ℚ)) (lossFn : List (List ℚ) → List ℤ → ℚ)
    (stepF : W → I × List ℤ → W) (w : W) (batches : List (I × List ℤ)) : TrainResult W :=
  ⟨(trainGo fwd lossFn stepF w batches).1, true,
    (trainGo fwd lossFn stepF w batches).2.1, (trainGo fwd lossFn stepF w batches).2.2⟩

/-- The value `train` returns: `np.mean(train_loss)` (`train.py` line 50). -/
def trainRet (fwd : W → I → List (List ℚ)) (lossFn : List (List ℚ) → List ℤ → ℚ)
    (stepF : W → I × List ℤ → W) (w : W) (batches : List (I × List ℤ)) : FV :=
  npMeanQ (trainRun fwd lossFn stepF w batches).losses

/-- The expected event trace of a training epoch of `n` batches: the five
operations of `train`'s loop body, in source order, once per batch. -/
def trainTraceOf : Nat → List Ev
  | 0 => []
  | n + 1 =>
    [Ev.fwdPass, Ev.computeLoss, Ev.backwardPass, Ev.optStep, Ev.zeroGrad]
      ++ trainTraceOf n

/-- Result of the `validate` function (`train.py` lines 53–64): the model
weights (which the function receives and never writes), the `model.eval()`
mode flag, the event trace, and the recorded per-batch losses. -/
structure ValResult (W : Type) where
  weights : W
  modeTraining : Bool
  trace : List Ev
  losses : List ℚ
deriving DecidableEq

/-- Batch loop of `validate` (`train.py` lines 56–62): a forward pass inside
`torch.no_grad()` and a loss computation per batch; no optimizer is in
scope, so the weights are only read. -/
def validateGo (fwd : W → I → List (List ℚ)) (lossFn : List (List ℚ) → List ℤ → ℚ)
    (w : W) : List (I × List ℤ) → List Ev × List ℚ
  | [] => ([], [])
  | bt :: bs =>
    let logits := fwd w bt.1
    let ell := lossFn logits bt.2
    let rest := validateGo fwd lossFn w bs
    ([Ev.noGradFwd, Ev.computeLoss] ++ rest.1, ell :: rest.2)

/-- The `validate` function (`train.py` lines 53–64). -/
def validateRun (fwd : W → I → List (List ℚ)) (lossFn : List (List ℚ) → List ℤ → ℚ)
    (w : W) (batches : List (I × List ℤ)) : ValResult W :=
  ⟨w, false, (validateGo fwd lossFn w batches).1, (validateGo fwd lossFn w batches).2⟩

/-- The value `validate` returns: `np.mean(val_loss)` (`train.py` line 64). -/
def validateRet (fwd : W → I → List (List ℚ)) (lossFn : List (List ℚ) → List ℤ → ℚ)
    (w : W) (batches : List (I × List ℤ)) : FV :=
  npMeanQ (validateRun fwd lossFn w batches).losses

/-- Batch loop of `predict` (`train.py` lines 71–79).  `logitsOf` gives the
logits row the model produces for one video (one row of `model(videos)`),
`b` is `loader.batch_size`, `i` the batch index.  Per the source, the whole
batch's logits matrix is flattened and a single `np.argmax` scalar is
broadcast into `predictions[i*b:(i+1)*b]`, while the batch's label vector is
copied into `labels[i*b:(i+1)*b]`. -/
def predictGo (logitsOf : V → List ℚ) (b : Nat) :
    Nat → List (List (V × ℚ)) → List ℚ → List ℚ → List ℚ × List ℚ
  | _, [], preds, labs => (preds, labs)
  | i, batch :: rest, preds, labs =>
    let logits := batch.map (fun s => logitsOf s.1)
    let p : Nat := npArgmax (concatAll logits)
    let preds' := setSlice (p : ℚ) (i * b) ((i + 1) * b) 0 preds
    let labs' := setSliceVec (batch.map Prod.snd) (i * b) 0 labs
    predictGo logitsOf b (i + 1) rest preds' labs'

/-- The `predict` function (`train.py` lines 67–80): zero-initialised
`predictions` and `labels` arrays of length `len(loader.dataset)`, filled by
the batch loop; the test loader iterates the dataset in order with
`shuffle=False, drop_last=False` (`train.py` lines 136–137). -/
def predictRun (logitsOf : V → List ℚ) (ds : List (V × ℚ)) (b : Nat) :
    List ℚ × List ℚ :=
  predictGo logitsOf b 0 (chunks b ds)
    (List.replicate ds.length 0) (List.replicate ds.length 0)

/-- Per-row argmax: the prediction the spec promises for each video — the
argmax over that video's own logits row.  Used only to state how the code's
flat argmax diverges from it. -/
def perVideoArgmax (logitsOf : V → List ℚ) (ds : List (V × ℚ)) : List ℚ :=
  ds.map (fun s => (npArgmax (logitsOf s.1) : ℚ))

/-- One row of the output table: video name, prediction, label, in the
column order of the dict literal at `train.py` lines 144–146. -/
structure CSV where
  columns : List String
  rows : List (String × ℚ × ℚ)
deriving DecidableEq

/-- The `pd.DataFrame({"video_names": …, "predictions": …, "labels": …})`
construction written by `main` (`train.py` lines 144–146). -/
def makeTestCSV (names : List String) (preds labs : List ℚ) : CSV :=
  ⟨["video_names", "predictions", "labels"], names.zip (preds.zip labs)⟩

/-- Modelled from the spec: one test-split sample of the `VideoDataset`
(`utils.py`, not part of `src/`).  Per spec §4.2 the dataset yields, in a
fixed iteration order, a video with its name (the dataset's `video_names`
attribute, in that same order) and a label, the −1 sentinel for unlabeled
test videos. -/
structure TestSample (V : Type) where
  name : String
  video : V
  label : ℚ
deriving DecidableEq

/-- The checkpoint filename `f"{args.name}_best.pth"` (`train.py` lines 100,
131, 139). -/
def ckptFile (nm : String) : String := nm ++ "_best.pth"

/-- The file system visible to the script, mapping filenames to stored
checkpoint payloads (the state dict saved by `torch.save`). -/
def FS (W : Type) : Type := String → Option W

/-- Writing a file: `torch.save(model.state_dict(), fp)`. -/
def FS.update (fs : FS W) (k : String) (w : W) : FS W :=
  fun q => if q = k then some w else fs q

/-- Per-epoch log of the checkpoint bookkeeping in `main`'s training loop
(`train.py` lines 123–132): best-so-far value entering the epoch, the
epoch's validation loss, whether the `val_loss < best_val_loss` branch was
taken (writing the checkpoint), and the best-so-far value leaving the
epoch. -/
structure EpochLog where
  bestBefore : FV
  valLoss : FV
  wrote : Bool
  bestAfter : FV
deriving DecidableEq

/-- Result of the training loop of `main`. -/
structure TrainPhaseOut (W : Type) where
  weights : W
  fs : FS W
  best : FV
  logs : List EpochLog

/-- The training loop of `main` (`train.py` lines 123–132).  `epochFn e w`
abstracts one `train` + `validate` round at epoch `e`: the weights after the
epoch's optimizer steps and the epoch's validation loss.  After each epoch,
if `val_loss < best_val_loss` the loop updates the best value and saves the
current `state_dict` to the checkpoint file; otherwise it skips.  `e` is the
current epoch index and `n` the number of epochs still to run. -/
def trainPhase (nm : String) (epochFn : Nat → W → W × FV) :
    Nat → Nat → W → FS W → FV → TrainPhaseOut W
  | _, 0, w, fs, best => ⟨w, fs, best, []⟩
  | e, n + 1, w, fs, best =>
    let res := epochFn e w
    let wr := FV.lt res.2 best
    let fs' := if wr then fs.update (ckptFile nm) res.1 else fs
    let best' := if wr then res.2 else best
    let rest := trainPhase nm epochFn (e + 1) n res.1 fs' best'
    ⟨rest.weights, rest.fs, rest.best, ⟨best, res.2, wr, best'⟩ :: rest.logs⟩

/-- The command-line arguments of the script (`parse_arguments`,
`train.py` lines 17–33).  `predictOnly` is the `--predict` flag,
`continueTraining` the `--continue-training` flag. -/
structure Args where
  name : String
  batchSize : Nat
  framesCnt : Nat
  modelType : String
  epochs : Nat
  gpu : Bool
  predictOnly : Bool
  continueTraining : Bool

/-- What a successful run of `main` leaves behind: the file system after the
training phase (from which the pre-prediction load reads), the weights
actually loaded into the model for `predict`, and the name and content of
the written CSV. -/
structure RunResult (W : Type) where
  fsAfterTrain : FS W
  usedWeights : W
  csvFile : String
  csv : CSV

/-- The tail of `main` (`train.py` lines 134–146): build the test loader,
reload the checkpoint file — unconditionally, raising an I/O error if it is
missing — run `predict` with the loaded weights, and assemble the output
CSV.  `nm` is the experiment name, `bs` the batch size and `fsT` the file
system as it stands when this code runs. -/
def finishRun (nm : String) (bs : Nat) (fsT : FS W) (logitsOf : W → V → List ℚ)
    (testData : List (TestSample V)) : List Ev × Except Err (RunResult W) :=
  match fsT (ckptFile nm) with
  | none => ([], Except.error Err.ioError)
  | some wBest =>
    let pr := predictRun (logitsOf wBest)
      (testData.map (fun s => (s.video, s.label))) bs
    ([Ev.loadCkpt, Ev.predicted],
      Except.ok ⟨fsT, wBest, nm ++ "_test_predictions.csv",
        makeTestCSV (testData.map TestSample.name) pr.1 pr.2⟩)

/-- The `main` function (`train.py` lines 83–146) at the level of its
checkpoint and prediction plumbing.  `initW` is the freshly constructed
model's weights for the selected variant; `epochFn` abstracts one
train+validate epoch; `logitsOf w v` is the logits row the model with
weights `w` produces for video `v`; `testData` is the test split.  The
source's steps, in order: model construction via the `model_type` dispatch;
in continue-training mode a load of the checkpoint (raising an I/O error if
the file is missing); unless `--predict` is given, the training loop with
`best_val_loss = np.inf`; an unconditional reload of the checkpoint file
(raising an I/O error if missing); `predict`; the CSV write. -/
def mainRun (args : Args) (fs0 : FS W) (initW : ModelKind → W)
    (epochFn : Nat → W → W × FV) (logitsOf : W → V → List ℚ)
    (testData : List (TestSample V)) : List Ev × Except Err (RunResult W) :=
  let w0 := initW (selectModel args.modelType)
  let wStart : Except Err W :=
    if args.continueTraining then
      match fs0 (ckptFile args.name) with
      | none => Except.error Err.ioError
      | some w => Except.ok w
    else Except.ok w0
  match wStart with
  | Except.error e => ([], Except.error e)
  | Except.ok w1 =>
    finishRun args.name args.batchSize
      (if args.predictOnly then fs0
        else (trainPhase args.name epochFn 0 args.epochs w1 fs0 FV.inf).fs)
      logitsOf testData

/-- Python's `sys.exit` argument-to-exit-code map for the values the script
can pass: `None` yields exit status 0, an integer yields itself. -/
def sysExit : Option Int → Int
  | none => 0
  | some n => n

/-- The value `main` returns: the function body (`train.py` lines 83–146)
ends without a `return` statement, so a completed call returns `None`. -/
def mainReturn : Option Int := none

/-- The entry point `sys.exit(main(args))` (`train.py` line 151): on a run
of `main` that completes without raising, the process exit code is
`sys.exit` applied to `main`'s return value. -/
def scriptExit (args : Args) (fs0 : FS W) (initW : ModelKind → W)
    (epochFn : Nat → W → W × FV) (logitsOf : W → V → List ℚ)
    (testData : List (TestSample V)) : Except Err Int :=
  ((mainRun args fs0 initW epochFn logitsOf testData).2).map
    (fun _ => sysExit mainReturn)

/-- The training dataloader's batches (`train.py` lines 111–112): built with
`shuffle=True, drop_last=True`, so over the epoch's (shuffled) sample order
only complete batches of `batchSize` samples survive, each turned into one
(stacked input, label vector) pair by `collate_fn`. -/
def trainLoaderBatches (batchSize : Nat) (collate : List S → I × List ℤ)
    (epochOrder : List S) : List (I × List ℤ) :=
  (chunksDropLast batchSize epochOrder).map collate

/-! Concrete instances used to exercise the embedding at explicit inputs. -/

/-- A two-class model on a two-video test split whose logits rows are
`[0, 0]` and `[0, 1]`. -/
def bugLogits : Nat → List ℚ := fun v => if v = 0 then [0, 0] else [0, 1]

/-- The two-video test split (label sentinel −1) fed to `predict` with
batch size 2. -/
def bugDataset : List (Nat × ℚ) := [(0, -1), (1, -1)]

/-- A concrete predict-only invocation: default experiment name semantics,
batch size 2, one epoch, `--predict` set, `--continue-training` unset. -/
def argsA : Args := ⟨"baseline", 2, 16, "cnn-avg", 1, false, true, false⟩

/-- A file system holding one checkpoint `baseline_best.pth` with payload
`7`. -/
def fsA : FS ℕ := fun k => if k = "baseline_best.pth" then some 7 else none

/-- A file system with no files. -/
def fsEmpty : FS ℕ := fun _ => none

/-- Fresh-model weights for either variant. -/
def initWA : ModelKind → ℕ := fun _ => 0

/-- One abstract train+validate epoch: increments the weights, validation
loss 1. -/
def epochFnA : Nat → ℕ → ℕ × FV := fun _ w => (w + 1, FV.fin 1)

/-- A model producing the logits row `[1, 0]` for every video. -/
def logitsOfA : ℕ → ℕ → List ℚ := fun _ _ => [1, 0]

/-- A one-video test split. -/
def testDataA : List (TestSample ℕ) := [⟨"a.mp4", 0, -1⟩]

/-- The run result `mainRun` produces on the concrete predict-only
invocation above. -/
def rA : RunResult ℕ :=
  ⟨fsA, 7, "baseline_test_predictions.csv",
    ⟨["video_names", "predictions", "labels"], [("a.mp4", 0, -1)]⟩⟩

/-- A concrete forward function for exercising `train`/`validate`. -/
def cFwd : Nat → Nat → List (List ℚ) := fun _ _ => [[1, 0]]

/-- A concrete loss function for exercising `train`/`validate`. -/
def cLoss : List (List ℚ) → List ℤ → ℚ := fun _ _ => 2

/-- A concrete optimizer step for exercising `train`. -/
def cStep : Nat → Nat × List ℤ → Nat := fun w _ => w + 1

/-- A concrete one-batch loader for exercising `train`. -/
def cBatches : List (Nat × List ℤ) := [(0, [1])]

/-- A concrete collate function: stacks samples into a dummy batch input
and a zero label vector. -/
def cCollate : List ℕ → ℕ × List ℤ := fun l => (l.length, l.map (fun _ => 0))

/-! Helper lemmas. -/

theorem npMeanQ_ne_nil (l : List ℚ) (h : l ≠ []) :
    npMeanQ l = FV.fin (l.sum / l.length) := by
  cases l with
  | nil => exact absurd rfl h
  | cons x xs => simp [npMeanQ]

theorem trainGo_trace_losses (fwd : W → I → List (List ℚ))
    (lossFn : List (List ℚ) → List ℤ → ℚ) (stepF : W → I × List ℤ → W) :
    ∀ (batches : List (I × List ℤ)) (w : W),
      (trainGo fwd lossFn stepF w batches).2.1 = trainTraceOf batches.length ∧
      (trainGo fwd lossFn stepF w batches).2.2.length = batches.length := by
  intro batches
  induction batches with
  | nil => intro w; simp [trainGo, trainTraceOf]
  | cons bt bs ih =>
      intro w
      have h := ih (stepF w bt)
      simp [trainGo, trainTraceOf, h.1, h.2]

theorem validateGo_spec (fwd : W → I → List (List ℚ))
    (lossFn : List (List ℚ) → List ℤ → ℚ) (w : W) :
    ∀ batches : List (I × List ℤ),
      Ev.optStep ∉ (validateGo fwd lossFn w batches).1 ∧
      (validateGo fwd lossFn w batches).2 =
        batches.map (fun bt => lossFn (fwd w bt.1) bt.2) := by
  intro batches
  induction batches with
  | nil => simp [validateGo]
  | cons bt bs ih => simp [validateGo, ih.1, ih.2]

theorem length_setSlice (v : ℚ) (lo hi : Nat) :
    ∀ (j : Nat) (l : List ℚ), (setSlice v lo hi j l).length = l.length := by
  intro j l
  induction l generalizing j with
  | nil => simp [setSlice]
  | cons x xs ih => simp [setSlice, ih]

theorem length_setSliceVec (vs : List ℚ) (lo : Nat) :
    ∀ (j : Nat) (l : List ℚ), (setSliceVec vs lo j l).length = l.length := by
  intro j l
  induction l generalizing j with
  | nil => simp [setSliceVec]
  | cons x xs ih => simp [setSliceVec, ih]

theorem predictGo_lengths (logitsOf : V → List ℚ) (b : Nat) :
    ∀ (bs : List (List (V × ℚ))) (i : Nat) (preds labs : List ℚ),
      (predictGo logitsOf b i bs preds labs).1.length = preds.length ∧
      (predictGo logitsOf b i bs preds labs).2.length = labs.length := by
  intro bs
  induction bs with
  | nil => intro i preds labs; simp [predictGo]
  | cons batch rest ih =>
      intro i preds labs
      have h := ih (i + 1)
        (setSlice ((npArgmax (concatAll (batch.map (fun s => logitsOf s.1)))) : ℚ)
          (i * b) ((i + 1) * b) 0 preds)
        (setSliceVec (batch.map Prod.snd) (i * b) 0 labs)
      simpa [predictGo, length_setSlice, length_setSliceVec] using h

theorem predictRun_lengths (logitsOf : V → List ℚ) (ds : List (V × ℚ)) (b : Nat) :
    (predictRun logitsOf ds b).1.length = ds.length ∧
    (predictRun logitsOf ds b).2.length = ds.length := by
  have h := predictGo_lengths logitsOf b (chunks b ds) 0
    (List.replicate ds.length 0) (List.replicate ds.length 0)
  simpa [predictRun] using h

theorem finishRun_ok (nm : String) (bs : Nat) (fsT : FS W)
    (logitsOf : W → V → List ℚ) (testData : List (TestSample V))
    (r : RunResult W)
    (h : (finishRun nm bs fsT logitsOf testData).2 = Except.ok r) :
    r.fsAfterTrain = fsT ∧
    fsT (ckptFile nm) = some r.usedWeights ∧
    r.csvFile = nm ++ "_test_predictions.csv" ∧
    r.csv = makeTestCSV (testData.map TestSample.name)
      (predictRun (logitsOf r.usedWeights)
        (testData.map (fun s => (s.video, s.label))) bs).1
      (predictRun (logitsOf r.usedWeights)
        (testData.map (fun s => (s.video, s.label))) bs).2 := by
  unfold finishRun at h
  split at h
  · exact absurd h (by simp)
  · next wBest heq =>
      simp only at h
      injection h with h2
      subst h2
      exact ⟨rfl, heq, rfl, rfl⟩

theorem mainRun_ok (args : Args) (fs0 : FS W) (initW : ModelKind → W)
    (epochFn : Nat → W → W × FV) (logitsOf : W → V → List ℚ)
    (testData : List (TestSample V)) (r : RunResult W)
    (h : (mainRun args fs0 initW epochFn logitsOf testData).2 = Except.ok r) :
    r.fsAfterTrain (ckptFile args.name) = some r.usedWeights ∧
    r.csvFile = args.name ++ "_test_predictions.csv" ∧
    r.csv = makeTestCSV (testData.map TestSample.name)
      (predictRun (logitsOf r.usedWeights)
        (testData.map (fun s => (s.video, s.label))) args.batchSize).1
      (predictRun (logitsOf r.usedWeights)
        (testData.map (fun s => (s.video, s.label))) args.batchSize).2 := by
  unfold mainRun at h
  cases hct : args.continueTraining with
  | false =>
      simp only [hct, Bool.false_eq_true, if_false] at h
      obtain ⟨h1, h2, h3, h4⟩ := finishRun_ok _ _ _ _ _ _ h
      exact ⟨by rw [h1]; exact h2, h3, h4⟩
  | true =>
      simp only [hct, if_true] at h
      cases hfs : fs0 (ckptFile args.name) with
      | none => rw [hfs] at h; exact absurd h (by simp)
      | some w =>
          rw [hfs] at h
          obtain ⟨h1, h2, h3, h4⟩ := finishRun_ok _ _ _ _ _ _ h
          exact ⟨by rw [h1]; exact h2, h3, h4⟩

theorem trainPhase_logs (nm : String) (epochFn : Nat → W → W × FV) :
    ∀ (n e : Nat) (w : W) (fs : FS W) (best : FV),
      (∀ lg ∈ (trainPhase nm epochFn e n w fs best).logs,
        lg.wrote = FV.lt lg.valLoss lg.bestBefore ∧
        lg.bestAfter = (if lg.wrote then lg.valLoss else lg.bestBefore)) ∧
      List.Chain' (fun a b => b.bestBefore = a.bestAfter)
        (trainPhase nm epochFn e n w fs best).logs ∧
      (∀ lg ∈ (trainPhase nm epochFn e n w fs best).logs.head?,
        lg.bestBefore = best) := by
  intro n
  induction n with
  | zero => intro e w fs best; simp [trainPhase]
  | succ k ih =>
      intro e w fs best
      obtain ⟨ih1, ih2, ih3⟩ := ih (e + 1) (epochFn e w).1
        (if FV.lt (epochFn e w).2 best then fs.update (ckptFile nm) (epochFn e w).1 else fs)
        (if FV.lt (epochFn e w).2 best then (epochFn e w).2 else best)
      refine ⟨?_, ?_, ?_⟩
      · intro lg hlg
        simp only [trainPhase, List.mem_cons] at hlg
        rcases hlg with rfl | hlg
        · exact ⟨rfl, rfl⟩
        · exact ih1 lg hlg
      · simp only [trainPhase]
        rw [List.chain'_cons']
        exact ⟨fun y hy => ih3 y hy, ih2⟩
      · intro lg hlg
        simp only [trainPhase, List.head?_cons, Option.mem_def,
          Option.some.injEq] at hlg
        subst hlg
        rfl

theorem trainPhase_fs_preserves (nm : String) (epochFn : Nat → W → W × FV) :
    ∀ (n e : Nat) (w : W) (fs : FS W) (best : FV),
      fs (ckptFile nm) ≠ none →
      (trainPhase nm epochFn e n w fs best).fs (ckptFile nm) ≠ none := by
  intro n
  induction n with
  | zero => intro e w fs best h; simpa [trainPhase] using h
  | succ k ih =>
      intro e w fs best h
      simp only [trainPhase]
      apply ih
      by_cases hw : FV.lt (epochFn e w).2 best
      · simp [hw, FS.update]
      · simpa [hw] using h

theorem trainPhase_saves (nm : String) (epochFn : Nat → W → W × FV) :
    ∀ (n e : Nat) (w : W) (fs : FS W),
      0 < n →
      (∀ lg ∈ (trainPhase nm epochFn e n w fs FV.inf).logs,
        lg.valLoss.isFin = true) →
      (trainPhase nm epochFn e n w fs FV.inf).fs (ckptFile nm) ≠ none := by
  intro n
  cases n with
  | zero => intro e w fs h; exact absurd h (by simp)
  | succ k =>
      intro e w fs _ hfin
      have hmem : (⟨FV.inf, (epochFn e w).2, FV.lt (epochFn e w).2 FV.inf,
          if FV.lt (epochFn e w).2 FV.inf then (epochFn e w).2 else FV.inf⟩ : EpochLog) ∈
          (trainPhase nm epochFn e (k + 1) w fs FV.inf).logs := by
        simp [trainPhase]
      have hf := hfin _ hmem
      have hlt : FV.lt (epochFn e w).2 FV.inf = true := by
        cases hv : (epochFn e w).2 with
        | nan => rw [hv] at hf; exact absurd hf (by simp [FV.isFin])
        | fin q => simp [FV.lt]
        | inf => rw [hv] at hf; exact absurd hf (by simp [FV.isFin])
      simp only [trainPhase]
      apply trainPhase_fs_preserves
      simp [hlt, FS.update]

/-! Claim theorems. -/

/-- C1: the claim says every test batch yields one predicted class per video,
the argmax over that video's own logits row, all values in
`[0, num_classes)`.  The code (`train.py` line 77–78) instead flattens the
whole batch's logits and broadcasts the single flat `np.argmax` into the
batch's slice of `predictions`.  At the concrete failing input — two videos,
two classes, logits rows `[0, 0]` and `[0, 1]`, batch size 2 — the code
stores 3 for both videos: 3 lies outside `[0, 2)` and the per-row argmaxes
would have been `[0, 1]`. -/
theorem predict_flat_argmax_bug :
    (∀ s ∈ bugDataset, (bugLogits s.1).length = 2) ∧
    predictRun bugLogits bugDataset 2 = ([3, 3], [-1, -1]) ∧
    perVideoArgmax bugLogits bugDataset = [0, 1] ∧
    ¬ (∀ p ∈ (predictRun bugLogits bugDataset 2).1, p < 2) := by
  refine ⟨by decide, by decide, by decide, by decide⟩

/-- C5: for every batch of a training epoch, `train` performs forward pass,
loss computation, backward pass, optimizer step and gradient reset, in that
order, and returns the arithmetic mean of the recorded per-batch losses. -/
theorem train_batch_order_and_mean (fwd : W → I → List (List ℚ))
    (lossFn : List (List ℚ) → List ℤ → ℚ) (stepF : W → I × List ℤ → W)
    (w : W) (batches : List (I × List ℤ)) (h : batches ≠ []) :
    (trainRun fwd lossFn stepF w batches).trace = trainTraceOf batches.length ∧
    (trainRun fwd lossFn stepF w batches).losses.length = batches.length ∧
    trainRet fwd lossFn stepF w batches =
      FV.fin ((trainRun fwd lossFn stepF w batches).losses.sum /
        (trainRun fwd lossFn stepF w batches).losses.length) := by
  obtain ⟨h1, h2⟩ := trainGo_trace_losses fwd lossFn stepF batches w
  refine ⟨h1, h2, ?_⟩
  have hne : (trainRun fwd lossFn stepF w batches).losses ≠ [] := by
    intro hc
    have : batches.length = 0 := by
      have := h2
      rw [show (trainRun fwd lossFn stepF w batches).losses =
        (trainGo fwd lossFn stepF w batches).2.2 from rfl] at hc
      simpa [hc] using this.symm
    exact h (List.length_eq_zero.mp this)
  exact npMeanQ_ne_nil _ hne

/-- C5 witness: the property evaluated at a concrete one-batch loader. -/
theorem train_batch_order_and_mean_witness :
    cBatches ≠ [] ∧
    ((trainRun cFwd cLoss cStep 0 cBatches).trace = trainTraceOf cBatches.length ∧
      (trainRun cFwd cLoss cStep 0 cBatches).losses.length = cBatches.length ∧
      trainRet cFwd cLoss cStep 0 cBatches =
        FV.fin ((trainRun cFwd cLoss cStep 0 cBatches).losses.sum /
          (trainRun cFwd cLoss cStep 0 cBatches).losses.length)) :=
  ⟨by decide, train_batch_order_and_mean cFwd cLoss cStep 0 cBatches (by decide)⟩

/-- C6: `validate` leaves the model parameters untouched — it has no
optimizer in scope and performs no step; its per-batch losses are plain
reads of the model at the incoming weights, and it returns their
`np.mean`. -/
theorem validate_preserves_params (fwd : W → I → List (List ℚ))
    (lossFn : List (List ℚ) → List ℤ → ℚ) (w : W)
    (batches : List (I × List ℤ)) :
    (validateRun fwd lossFn w batches).weights = w ∧
    Ev.optStep ∉ (validateRun fwd lossFn w batches).trace ∧
    (validateRun fwd lossFn w batches).losses =
      batches.map (fun bt => lossFn (fwd w bt.1) bt.2) ∧
    validateRet fwd lossFn w batches =
      npMeanQ (batches.map (fun bt => lossFn (fwd w bt.1) bt.2)) := by
  obtain ⟨h1, h2⟩ := validateGo_spec fwd lossFn w batches
  exact ⟨rfl, h1, h2, by simp [validateRet, validateRun, h2]⟩

/-- C9: every `--model-type` string other than exactly `"cnn-rnn"` falls
into the `else` branch of the dispatch and silently selects the
average-aggregation model; no error path exists. -/
theorem unknown_model_type_selects_avg (s : String) (h : s ≠ "cnn-rnn") :
    selectModel s = ModelKind.cnnAvg := by
  simp [selectModel, h]

/-- C9 witness: a misspelled variant name selects the average model. -/
theorem unknown_model_type_selects_avg_witness :
    ("cnn-rmn" ≠ "cnn-rnn") ∧ selectModel "cnn-rmn" = ModelKind.cnnAvg :=
  ⟨by decide, unknown_model_type_selects_avg "cnn-rmn" (by decide)⟩

/-- C10: the training loader drops incomplete batches (`drop_last=True`),
so a training dataset smaller than the batch size yields zero batches in
any epoch order: `train` performs no optimizer step, leaves the weights
unchanged, and returns `np.mean([])`, which is `nan`, without raising. -/
theorem small_dataset_empty_epoch (b : Nat) (l : List S)
    (collate : List S → I × List ℤ)
    (fwd : W → I → List (List ℚ)) (lossFn : List (List ℚ) → List ℤ → ℚ)
    (stepF : W → I × List ℤ → W) (w : W) (hb : 0 < b) (hl : l.length < b) :
    trainLoaderBatches b collate l = [] ∧
    (trainRun fwd lossFn stepF w (trainLoaderBatches b collate l)).trace = [] ∧
    Ev.optStep ∉ (trainRun fwd lossFn stepF w (trainLoaderBatches b collate l)).trace ∧
    (trainRun fwd lossFn stepF w (trainLoaderBatches b collate l)).weights = w ∧
    trainRet fwd lossFn stepF w (trainLoaderBatches b collate l) = FV.nan := by
  have hdiv : l.length / b = 0 := Nat.div_eq_of_lt hl
  have hempty : trainLoaderBatches b collate l = [] := by
    simp [trainLoaderBatches, chunksDropLast, hdiv, chunks, chunksGo]
  refine ⟨hempty, ?_, ?_, ?_, ?_⟩ <;>
    simp [hempty, trainRun, trainGo, trainRet, npMeanQ]

/-- C10 witness: batch size 2 over a one-sample dataset. -/
theorem small_dataset_empty_epoch_witness :
    (0 < 2 ∧ [(5 : ℕ)].length < 2) ∧
    (trainLoaderBatches 2 cCollate [(5 : ℕ)] = [] ∧
      (trainRun cFwd cLoss cStep 0 (trainLoaderBatches 2 cCollate [(5 : ℕ)])).trace = [] ∧
      Ev.optStep ∉ (trainRun cFwd cLoss cStep 0 (trainLoaderBatches 2 cCollate [(5 : ℕ)])).trace ∧
      (trainRun cFwd cLoss cStep 0 (trainLoaderBatches 2 cCollate [(5 : ℕ)])).weights = 0 ∧
      trainRet cFwd cLoss cStep 0 (trainLoaderBatches 2 cCollate [(5 : ℕ)]) = FV.nan) :=
  ⟨⟨by decide, by decide⟩,
    small_dataset_empty_epoch 2 [(5 : ℕ)] cCollate cFwd cLoss cStep 0
      (by decide) (by decide)⟩

/-- C2 (amended): in `main`'s training loop the checkpoint file is written
in an epoch exactly when that epoch's validation loss is strictly below the
best-so-far value (initialized to `np.inf`), the best-so-far value becomes
that loss in the same step, and after a training run of at least one epoch
in which every epoch's validation loss is finite the checkpoint file
exists. -/
theorem checkpoint_write_iff_improvement (nm : String) (epochFn : Nat → W → W × FV)
    (n : Nat) (w0 : W) (fs0 : FS W) :
    (∀ lg ∈ (trainPhase nm epochFn 0 n w0 fs0 FV.inf).logs,
      lg.wrote = FV.lt lg.valLoss lg.bestBefore ∧
      lg.bestAfter = (if lg.wrote then lg.valLoss else lg.bestBefore)) ∧
    List.Chain' (fun a b => b.bestBefore = a.bestAfter)
      (trainPhase nm epochFn 0 n w0 fs0 FV.inf).logs ∧
    (∀ lg ∈ (trainPhase nm epochFn 0 n w0 fs0 FV.inf).logs.head?,
      lg.bestBefore = FV.inf) ∧
    (0 < n →
      (∀ lg ∈ (trainPhase nm epochFn 0 n w0 fs0 FV.inf).logs,
        lg.valLoss.isFin = true) →
      (trainPhase nm epochFn 0 n w0 fs0 FV.inf).fs (ckptFile nm) ≠ none) := by
  obtain ⟨h1, h2, h3⟩ := trainPhase_logs nm epochFn n 0 w0 fs0 FV.inf
  exact ⟨h1, h2, h3, fun hn hfin => trainPhase_saves nm epochFn n 0 w0 fs0 hn hfin⟩

/-- C2 witness: a single epoch with finite validation loss, starting from an
empty file system, ends with the checkpoint file present. -/
theorem checkpoint_write_iff_improvement_witness :
    (0 < 1 ∧
      (∀ lg ∈ (trainPhase "baseline" epochFnA 0 1 (0 : ℕ) fsEmpty FV.inf).logs,
        lg.valLoss.isFin = true)) ∧
    (trainPhase "baseline" epochFnA 0 1 (0 : ℕ) fsEmpty FV.inf).fs
      (ckptFile "baseline") ≠ none :=
  ⟨⟨by decide, by decide⟩,
    (checkpoint_write_iff_improvement "baseline" epochFnA 1 0 fsEmpty).2.2.2
      (by decide) (by decide)⟩

/-- C2 counterexample: the claim as stated fails on a training run of zero
epochs (`--epochs 0` is accepted by the CLI): every epoch's validation loss
is then vacuously finite, yet the loop body never runs and no checkpoint
file is written. -/
theorem checkpoint_absent_after_zero_epochs :
    (∀ lg ∈ (trainPhase "baseline" epochFnA 0 0 (0 : ℕ) fsEmpty FV.inf).logs,
      lg.valLoss.isFin = true) ∧
    (trainPhase "baseline" epochFnA 0 0 (0 : ℕ) fsEmpty FV.inf).fs
      (ckptFile "baseline") = none := by
  exact ⟨by simp [trainPhase], rfl⟩

/-- C3: whenever `main` completes, the weights `predict` ran with are
exactly the payload of the checkpoint file as it stood after the training
phase — the reload at `train.py` lines 139–141 is unconditional, so
final-epoch weights are never used unless they are what the file holds. -/
theorem predict_uses_checkpoint_weights (args : Args) (fs0 : FS W)
    (initW : ModelKind → W) (epochFn : Nat → W → W × FV)
    (logitsOf : W → V → List ℚ) (testData : List (TestSample V))
    (r : RunResult W)
    (h : (mainRun args fs0 initW epochFn logitsOf testData).2 = Except.ok r) :
    r.fsAfterTrain (ckptFile args.name) = some r.usedWeights :=
  (mainRun_ok args fs0 initW epochFn logitsOf testData r h).1

/-- C3 witness: the concrete predict-only run loads payload 7 from the
stored checkpoint and predicts with it. -/
theorem predict_uses_checkpoint_weights_witness :
    (mainRun argsA fsA initWA epochFnA logitsOfA testDataA).2 = Except.ok rA ∧
    rA.fsAfterTrain (ckptFile argsA.name) = some rA.usedWeights :=
  ⟨rfl, predict_uses_checkpoint_weights argsA fsA initWA epochFnA logitsOfA
    testDataA rA rfl⟩

/-- C4: the CSV a completed run writes is named
`{name}_test_predictions.csv`, has exactly the columns `video_names`,
`predictions`, `labels`, and one row per test-split video with row `i`
carrying the name of the `i`-th video in dataset iteration order. -/
theorem test_csv_shape (args : Args) (fs0 : FS W)
    (initW : ModelKind → W) (epochFn : Nat → W → W × FV)
    (logitsOf : W → V → List ℚ) (testData : List (TestSample V))
    (r : RunResult W)
    (h : (mainRun args fs0 initW epochFn logitsOf testData).2 = Except.ok r) :
    r.csvFile = args.name ++ "_test_predictions.csv" ∧
    r.csv.columns = ["video_names", "predictions", "labels"] ∧
    r.csv.rows.length = testData.length ∧
    r.csv.rows.map Prod.fst = testData.map TestSample.name := by
  obtain ⟨h1, h3, h4⟩ := mainRun_ok args fs0 initW epochFn logitsOf testData r h
  obtain ⟨hp, hl⟩ := predictRun_lengths (logitsOf r.usedWeights)
    (testData.map (fun s => (s.video, s.label))) args.batchSize
  simp only [List.length_map] at hp hl
  refine ⟨h3, ?_, ?_, ?_⟩
  · rw [h4]; rfl
  · rw [h4]; simp [makeTestCSV, List.length_zip, hp, hl]
  · rw [h4]
    apply List.map_fst_zip
    simp [List.length_zip, hp, hl]

/-- C4 witness: the concrete predict-only run writes a one-row CSV with the
three columns and the video's name in the first column. -/
theorem test_csv_shape_witness :
    (mainRun argsA fsA initWA epochFnA logitsOfA testDataA).2 = Except.ok rA ∧
    (rA.csvFile = argsA.name ++ "_test_predictions.csv" ∧
      rA.csv.columns = ["video_names", "predictions", "labels"] ∧
      rA.csv.rows.length = testDataA.length ∧
      rA.csv.rows.map Prod.fst = testDataA.map TestSample.name) :=
  ⟨rfl, test_csv_shape argsA fsA initWA epochFnA logitsOfA testDataA rA rfl⟩

/-- C7: if the checkpoint file is absent when `main` tries to load it — at
start-up in continue-training mode, or before prediction in a predict-only
run — the run aborts with an I/O error, no fallback weights are used and
`predict` never runs. -/
theorem missing_checkpoint_aborts (args : Args) (fs0 : FS W)
    (initW : ModelKind → W) (epochFn : Nat → W → W × FV)
    (logitsOf : W → V → List ℚ) (testData : List (TestSample V))
    (h0 : fs0 (ckptFile args.name) = none)
    (hmode : args.continueTraining = true ∨ args.predictOnly = true) :
    (mainRun args fs0 initW epochFn logitsOf testData).2 =
      Except.error Err.ioError ∧
    Ev.predicted ∉ (mainRun args fs0 initW epochFn logitsOf testData).1 := by
  rcases hmode with hc | hp
  · constructor <;> simp [mainRun, hc, h0]
  · cases hcs : args.continueTraining
    · constructor <;> simp [mainRun, finishRun, hcs, hp, h0]
    · constructor <;> simp [mainRun, hcs, h0]

/-- C7 witness: the concrete predict-only run over an empty file system
aborts with an I/O error and never predicts. -/
theorem missing_checkpoint_aborts_witness :
    (fsEmpty (ckptFile argsA.name) = none ∧ argsA.predictOnly = true) ∧
    ((mainRun argsA fsEmpty initWA epochFnA logitsOfA testDataA).2 =
        Except.error Err.ioError ∧
      Ev.predicted ∉ (mainRun argsA fsEmpty initWA epochFnA logitsOfA testDataA).1) :=
  ⟨⟨rfl, rfl⟩, missing_checkpoint_aborts argsA fsEmpty initWA epochFnA logitsOfA
    testDataA rfl (Or.inr rfl)⟩

/-- C8: `main` has no `return` statement, so a run that completes without
raising hands `None` to `sys.exit`, and the process exit status is 0. -/
theorem normal_exit_code_zero (args : Args) (fs0 : FS W)
    (initW : ModelKind → W) (epochFn : Nat → W → W × FV)
    (logitsOf : W → V → List ℚ) (testData : List (TestSample V))
    (r : RunResult W)
    (h : (mainRun args fs0 initW epochFn logitsOf testData).2 = Except.ok r) :
    scriptExit args fs0 initW epochFn logitsOf testData = Except.ok 0 := by
  simp [scriptExit, h, sysExit, mainReturn, Except.map]

/-- C8 witness: the concrete successful run exits with status 0. -/
theorem normal_exit_code_zero_witness :
    (mainRun argsA fsA initWA epochFnA logitsOfA testDataA).2 = Except.ok rA ∧
    scriptExit argsA fsA initWA epochFnA logitsOfA testDataA = Except.ok 0 :=
  ⟨rfl, normal_exit_code_zero argsA fsA initWA epochFnA logitsOfA testDataA rA rfl⟩

end VC
